import Mathlib

/-!
Verification of the mowen-mcp document conversion engine (service/api.go,
service/mowen_tools.go).

The Go code is shallowly embedded: pure functions become Lean functions,
the network-dependent collaborators (`UploadPrepare`, `UploadFile`,
`PostRequest` to the URL-relay endpoint) become an explicit environment
record `UploadEnv` of fallible oracles, and Go's three-way outcome
(value / error / runtime panic from an unchecked type assertion) becomes
the inductive `Res`.  JSON values (`interface\x7b\x7d`) are the inductive
`JValue`; Go maps (`map[string]interface\x7b\x7d`) are association lists
with the update-or-append write `mapSet`, whose lookup semantics matches
Go map assignment.
-/

namespace Mowen

/-- A JSON-ish runtime value, embedding Go's `interface\x7b\x7d` as produced by
`encoding/json` unmarshalling into `map[string]interface\x7b\x7d`. -/
inductive JValue where
  | str (s : String)
  | num (n : Int)
  | bool (b : Bool)
  | null
  | obj (fields : List (String × JValue))

/-- Association-list embedding of a Go `map[string]` with string keys. -/
abbrev GoMap := List (String × JValue)

/-- Go map read `m[k]` (first binding wins; `mapSet` keeps keys unique). -/
def mapGet (m : GoMap) (k : String) : Option JValue :=
  match m with
  | [] => none
  | kv :: rest => if kv.1 = k then some kv.2 else mapGet rest k

/-- Go map write `m[k] = v`: replace the existing binding in place, or
append a new one. -/
def mapSet (m : GoMap) (k : String) (v : JValue) : GoMap :=
  match m with
  | [] => [(k, v)]
  | kv :: rest => if kv.1 = k then (k, v) :: rest else kv :: mapSet rest k v

/-- `strings.HasPrefix s pre` from the Go standard library. -/
def hasPrefix (s pre : String) : Bool :=
  prefixChars pre.data s.data
where
  prefixChars : List Char → List Char → Bool
    | [], _ => true
    | _ :: _, [] => false
    | a :: as, b :: bs => a == b && prefixChars as bs

/-- `strings.ToLower` restricted to the ASCII range, which is all the file
extensions in `getFileTypeFromPath` need. -/
def toLowerStr (s : String) : String :=
  ⟨s.data.map Char.toLower⟩

/-- `filepath.Ext` (Go): the suffix of the last element starting at the
final dot; empty when the last element has no dot. -/
def filepathExt (path : String) : String :=
  extRev path.data.reverse []
where
  extRev : List Char → List Char → String
    | [], _ => ""
    | c :: rest, acc =>
      if c = '/' then ""
      else if c = '.' then ⟨'.' :: acc⟩
      else extRev rest (c :: acc)

/-- `filepath.Base` (Go, Unix rules): strip trailing slashes, then keep the
last path element; `""` gives `"."` and an all-slash path gives `"/"`. -/
def filepathBase (path : String) : String :=
  if path = "" then "."
  else
    let stripped := path.data.reverse.dropWhile (fun c => c = '/')
    if stripped = [] then "/"
    else ⟨(stripped.takeWhile (fun c => c ≠ '/')).reverse⟩

/-! ## Data model (structs of service/api.go and service/mowen_tools.go) -/

/-- `TextNode` (one annotated text span of the caller's input). -/
structure TextNode where
  text : String
  bold : Bool := false
  highlight : Bool := false
  link : String := ""
deriving DecidableEq

/-- `Paragraph` (tool-layer input validated by `validateRichNoteParagraphs`). -/
structure Paragraph where
  texts : List TextNode := []
  type : String := ""
deriving DecidableEq

/-- `ContentBlock` (one input block of `ConvertToMowenFormat`). -/
structure ContentBlock where
  type : String := ""
  texts : List TextNode := []
  noteId : String := ""
  fileType : String := ""
  sourceType : String := ""
  sourcePath : String := ""
  metadata : GoMap := []

/-- `MarkNode` (bold / highlight / link mark on an output text node). -/
structure MarkNode where
  type : String
  attrs : GoMap := []

/-- `MowenTextNode` (output text node). -/
structure MowenTextNode where
  type : String
  text : String
  marks : List MarkNode := []

/-- `MowenContentNode` (output content node; Go's nil and empty slices are
both the empty list since both serialize identically under omitempty). -/
structure MowenContentNode where
  type : String
  content : List MowenTextNode := []
  attrs : GoMap := []

/-- `MowenDocument` (the output root). -/
structure MowenDocument where
  type : String
  content : List MowenContentNode

/-- `APIResponse`: status code, JSON-parsed body when parseable (Go leaves
`Body` nil otherwise), raw body text. -/
structure APIResponse where
  statusCode : Nat
  body : Option GoMap
  rawBody : String

/-- Outcome of an embedded Go computation: a value, an `error` return, or a
runtime panic (Go's unchecked type assertions can panic). -/
inductive Res (α : Type) where
  | ok (val : α)
  | err (msg : String)
  | panic (msg : String)

/-- The network-dependent collaborators of the Media Resolver, as oracles:
`prepare` embeds `client.UploadPrepare` (given the numeric file-type code
and file name, it yields the upload form or a transport/status/parse
error), `upload` embeds `client.UploadFile` (form and file path to raw
response or transport error) and `postURL` embeds the `PostRequest` to the
URL-relay upload endpoint (numeric code, source URL, file name). -/
structure UploadEnv where
  prepare : Nat → String → Except String (List (String × String))
  upload : List (String × String) → String → Except String APIResponse
  postURL : Nat → String → String → Except String APIResponse

/-! ## Media Resolver (service/api.go) -/

/-- `getFileTypeFromPath`: numeric media-kind code from the lowercased
file extension (image=1, audio=2, pdf=3), otherwise an error. -/
def getFileTypeFromPath (filePath : String) : Except String Nat :=
  let ext := toLowerStr (filepathExt filePath)
  if ext = ".jpg" ∨ ext = ".jpeg" ∨ ext = ".png" ∨ ext = ".gif" ∨
     ext = ".bmp" ∨ ext = ".webp" then .ok 1
  else if ext = ".mp3" ∨ ext = ".wav" ∨ ext = ".aac" ∨ ext = ".flac" ∨
          ext = ".ogg" ∨ ext = ".m4a" then .ok 2
  else if ext = ".pdf" then .ok 3
  else .error ("不支持的文件类型: " ++ ext)

/-- Lines 470–478 of api.go: pull the file UUID out of the upload response
body.  The Go is `uploadResp.Body["file"].(map[string]interface\x7b\x7d)["fileId"].(string)`
guarded only by `Body != nil` — both type assertions are unchecked, so any
non-nil body whose `file` entry is not an object, or whose `fileId` entry
is not a string, panics; a nil body (or an empty extracted UUID) falls
through to the `fileUUID == ""` error return. -/
def extractFileIdLocal (body : Option GoMap) (rawBody : String) : Res String :=
  match body with
  | none => .err ("无法从上传响应中获取文件UUID，响应: " ++ rawBody)
  | some b =>
    match mapGet b "file" with
    | some (.obj f) =>
      match mapGet f "fileId" with
      | some (.str s) =>
        if s = "" then .err ("无法从上传响应中获取文件UUID，响应: " ++ rawBody)
        else .ok s
      | _ => .panic "interface conversion"
    | _ => .panic "interface conversion"

/-- `generateFileUUID`: the local-path media flow — extension-derived
numeric code, prepare call, upload call, status check, id extraction. -/
def generateFileUUID (env : UploadEnv) (filePath : String) : Res String :=
  match getFileTypeFromPath filePath with
  | .error e => .err ("无法确定文件类型: " ++ e)
  | .ok fileType =>
    match env.prepare fileType (filepathBase filePath) with
    | .error e => .err ("获取上传授权失败: " ++ e)
    | .ok form =>
      match env.upload form filePath with
      | .error e => .err ("文件上传失败: " ++ e)
      | .ok resp =>
        if resp.statusCode ≠ 200 ∧ resp.statusCode ≠ 204 then
          .err ("文件上传失败，状态码: " ++ toString resp.statusCode ++
                "，响应: " ++ resp.rawBody)
        else extractFileIdLocal resp.body resp.rawBody

/-- Line 390 of api.go: `uploadResp["file"].(map[string]interface\x7b\x7d)["fileId"].(string)`
in comma-ok position.  Only the outermost assertion (`.(string)`) gets the
comma-ok treatment; the inner assertion on the `file` entry still panics
when that entry is absent or not an object (including the nil-`Body`
case).  A present object lacking a string `fileId` yields the typed
missing-field error. -/
def extractFileIdURL (body : Option GoMap) : Res String :=
  match body with
  | none => .panic "interface conversion"
  | some b =>
    match mapGet b "file" with
    | some (.obj f) =>
      match mapGet f "fileId" with
      | some (.str s) => .ok s
      | _ => .err "上传文件响应中缺少 \x27fileId\x27 字段"
    | _ => .panic "interface conversion"

/-- `uploadFileFromURL`: the URL-relay media flow — declared-kind numeric
code, one relay call, status check, id extraction. -/
def uploadFileFromURL (env : UploadEnv) (fileURL fileTypeStr fileName : String) :
    Res String :=
  let code : Option Nat :=
    match fileTypeStr with
    | "image" => some 1
    | "audio" => some 2
    | "pdf" => some 3
    | _ => none
  match code with
  | none => .err ("不支持的文件类型: " ++ fileTypeStr)
  | some apiFileType =>
    match env.postURL apiFileType fileURL fileName with
    | .error e => .err ("通过 URL 上传文件失败: " ++ e)
    | .ok resp =>
      if resp.statusCode ≠ 200 then
        .err ("上传文件失败，状态码: " ++ toString resp.statusCode)
      else extractFileIdURL resp.body

/-! ## Text/Mark Converter (service/api.go) -/

/-- `convertTextsToMowenFormat`: one output text node per span, marks
accumulated in the fixed bold → highlight → link order. -/
def convertTextsToMowenFormat (texts : List TextNode) : List MowenTextNode :=
  texts.foldl
    (fun result text =>
      let marks : List MarkNode := []
      let marks := if text.bold then marks ++ [{ type := "bold" }] else marks
      let marks := if text.highlight then marks ++ [{ type := "highlight" }] else marks
      let marks :=
        if text.link ≠ "" then
          marks ++ [{ type := "link", attrs := [("href", JValue.str text.link)] }]
        else marks
      result ++ [{ type := "text", text := text.text, marks := marks }])
    []

/-! ## Block Converter and Document Assembler (service/api.go) -/

/-- The separator appended between adjacent top-level blocks. -/
def sepNode : MowenContentNode := { type := "paragraph" }

/-- One arm of the `switch block.Type` in `ConvertToMowenFormat`: the
nodes appended for a single block (zero or one), or that block's failure.
The error strings are the kind- and flow-specific wrappers of api.go;
an unsupported `FileType` falls out of the inner switch, appending
nothing and raising nothing. -/
def convertBlockNodes (env : UploadEnv) (block : ContentBlock) :
    Res (List MowenContentNode) :=
  match block.type with
  | "quote" =>
    .ok [{ type := "quote", content := convertTextsToMowenFormat block.texts }]
  | "note" =>
    .ok [{ type := "note", attrs := [("uuid", JValue.str block.noteId)] }]
  | "file" =>
    match block.fileType with
    | "image" =>
      match (if block.sourceType = "url" then
               uploadFileFromURL env block.sourcePath block.fileType block.sourcePath
             else generateFileUUID env block.sourcePath) with
      | .panic m => .panic m
      | .err e =>
        .err ((if block.sourceType = "url" then "通过 URL 上传图片文件失败: "
               else "上传本地图片文件失败: ") ++ e)
      | .ok fileUUID =>
        let attrs := block.metadata.foldl (fun a kv => mapSet a kv.1 kv.2)
          [("uuid", JValue.str fileUUID)]
        .ok [{ type := "image", attrs := attrs }]
    | "audio" =>
      match (if block.sourceType = "url" then
               uploadFileFromURL env block.sourcePath block.fileType block.sourcePath
             else generateFileUUID env block.sourcePath) with
      | .panic m => .panic m
      | .err e =>
        .err ((if block.sourceType = "url" then "通过 URL 上传音频文件失败: "
               else "上传本地音频文件失败: ") ++ e)
      | .ok fileUUID =>
        let attrs := block.metadata.foldl
          (fun a kv =>
            if kv.1 = "show_note" then mapSet a "show-note" kv.2
            else mapSet a kv.1 kv.2)
          [("audio-uuid", JValue.str fileUUID)]
        .ok [{ type := "audio", attrs := attrs }]
    | "pdf" =>
      match (if block.sourceType = "url" then
               uploadFileFromURL env block.sourcePath block.fileType
                 (filepathBase block.sourcePath)
             else generateFileUUID env block.sourcePath) with
      | .panic m => .panic m
      | .err e =>
        .err ((if block.sourceType = "url" then "通过 URL 上传PDF文件失败: "
               else "上传本地PDF文件失败: ") ++ e)
      | .ok fileUUID =>
        let attrs := block.metadata.foldl (fun a kv => mapSet a kv.1 kv.2)
          [("uuid", JValue.str fileUUID)]
        .ok [{ type := "pdf", attrs := attrs }]
    | _ => .ok []
  | _ =>
    .ok [{ type := "paragraph", content := convertTextsToMowenFormat block.texts }]

/-- Result of `ConvertToMowenFormat`, matching the Go pair
`(MowenDocument, error)`: on an error return the Go function hands back
the partially built document *together with* the error, so `err` carries
both; a panic propagates with no return values. -/
inductive ConvResult where
  | ok (doc : MowenDocument)
  | err (doc : MowenDocument) (msg : String)
  | panic (msg : String)

/-- The `for i, block := range blocks` loop of `ConvertToMowenFormat`:
`first` is `i == 0`, `acc` the document content built so far.  A separator
is appended before every block but the first — including before a block
that then fails, which is why the partial document carried by an error
return ends with that separator. -/
def convertLoop (env : UploadEnv) :
    List ContentBlock → Bool → List MowenContentNode → ConvResult
  | [], _, acc => .ok { type := "doc", content := acc }
  | block :: rest, first, acc =>
    let acc := if first then acc else acc ++ [sepNode]
    match convertBlockNodes env block with
    | .panic m => .panic m
    | .err m => .err { type := "doc", content := acc } m
    | .ok ns => convertLoop env rest false (acc ++ ns)

/-- `ConvertToMowenFormat`: iterate the caller's blocks in order starting
from the empty `doc` root. -/
def ConvertToMowenFormat (env : UploadEnv) (blocks : List ContentBlock) :
    ConvResult :=
  convertLoop env blocks true []

/-! ## Tool-layer validation (service/mowen_tools.go) -/

/-- The inner `for j, text := range para.Texts` loop of
`validateRichNoteParagraphs` started at span index `j` of paragraph `i`
(both 0-based; messages are 1-based). -/
def validateTextsFrom (i : Nat) : Nat → List TextNode → Option String
  | _, [] => none
  | j, t :: rest =>
    if t.text = "" then
      some ("第" ++ toString (i + 1) ++ "个段落第" ++ toString (j + 1) ++
            "个文本节点的text字段不能为空")
    else if t.link ≠ "" ∧ hasPrefix t.link "http" = false then
      some ("第" ++ toString (i + 1) ++ "个段落第" ++ toString (j + 1) ++
            "个文本节点的link必须是有效的URL")
    else validateTextsFrom i (j + 1) rest

/-- The outer `for i, para := range paragraphs` loop of
`validateRichNoteParagraphs` started at paragraph index `i`. -/
def validateParagraphsFrom (i : Nat) : List Paragraph → Option String
  | [] => none
  | p :: rest =>
    if p.type ≠ "" ∧ p.type ≠ "paragraph" ∧ p.type ≠ "quote" then
      some ("第" ++ toString (i + 1) ++
            "个段落的类型必须是 \x27paragraph\x27 或 \x27quote\x27")
    else if p.texts = [] then
      some ("第" ++ toString (i + 1) ++ "个段落的texts字段不能为空")
    else
      match validateTextsFrom i 0 p.texts with
      | some e => some e
      | none => validateParagraphsFrom (i + 1) rest

/-- `validateRichNoteParagraphs`: `none` means the input passed; `some e`
is the first error, in source order. -/
def validateRichNoteParagraphs (paragraphs : List Paragraph) : Option String :=
  if paragraphs = [] then some "段落列表不能为空"
  else validateParagraphsFrom 0 paragraphs

/-! ## Derived notions used in theorem statements -/

/-- The per-block success relation: each block of the first list converts
to the corresponding node list of the second. -/
def BlocksConvertTo (env : UploadEnv) (blocks : List ContentBlock)
    (nss : List (List MowenContentNode)) : Prop :=
  List.Forall₂ (fun b ns => convertBlockNodes env b = .ok ns) blocks nss

/-- Per-block node lists from the second block on, each preceded by the
structural separator. -/
def tailSeps (nss : List (List MowenContentNode)) : List MowenContentNode :=
  (nss.map (fun ns => sepNode :: ns)).flatten

/-- Per-block node lists joined with one separator between adjacent
blocks and none at either end. -/
def withSeps : List (List MowenContentNode) → List MowenContentNode
  | [] => []
  | ns :: rest => ns ++ tailSeps rest

/-- The span-level acceptance condition of `validateRichNoteParagraphs`:
non-empty text, and any present link has the literal prefix "http". -/
def textNodeValid (t : TextNode) : Bool :=
  if t.text = "" then false
  else if t.link ≠ "" ∧ hasPrefix t.link "http" = false then false
  else true

/-- The paragraph-level acceptance condition of
`validateRichNoteParagraphs`. -/
def paragraphValid (p : Paragraph) : Bool :=
  if p.type ≠ "" ∧ p.type ≠ "paragraph" ∧ p.type ≠ "quote" then false
  else if p.texts = [] then false
  else p.texts.all textNodeValid

/-- The text node the spec prescribes for one span: kind `text`, the
span's text, and marks in the fixed bold → highlight → link order, each
present exactly when its flag/field is set, the link mark carrying
`href`. -/
def specTextNode (t : TextNode) : MowenTextNode :=
  { type := "text", text := t.text
    marks :=
      (if t.bold then [{ type := "bold" }] else []) ++
      (if t.highlight then [{ type := "highlight" }] else []) ++
      (if t.link ≠ "" then
        [{ type := "link", attrs := [("href", JValue.str t.link)] }]
      else []) }

/-- The key transform the audio metadata loop applies before writing. -/
def renameShowNote (k : String) : String :=
  if k = "show_note" then "show-note" else k

/-- Metadata merge loop common to the three media kinds, with `f` the key
transform (`id` for image/pdf, `renameShowNote` for audio). -/
def foldMerge (f : String → String) (m : GoMap) (init : GoMap) : GoMap :=
  m.foldl (fun a kv => mapSet a (f kv.1) kv.2) init

/-! ## Concrete fixtures for counterexamples and witnesses -/

/-- An environment whose every remote call fails at the transport level. -/
def trivialEnv : UploadEnv :=
  { prepare := fun _ _ => .error "no network"
    upload := fun _ _ => .error "no network"
    postURL := fun _ _ _ => .error "no network" }

/-- An environment whose prepare step reports back the numeric media-kind
code it was sent, as the error text — used to observe what the local-path
flow transmits. -/
def probeEnv : UploadEnv :=
  { prepare := fun code _ => .error (toString code)
    upload := fun _ _ => .error "unreachable"
    postURL := fun _ _ _ => .error "unreachable" }

/-- URL-relay responses succeed with status 200 and body
`\x7b"file": \x7b"fileId": "f1"\x7d\x7d`, so the URL flow resolves every block to id
`"f1"`. -/
def relayOkEnv : UploadEnv :=
  { prepare := fun _ _ => .error "unused"
    upload := fun _ _ => .error "unused"
    postURL := fun _ _ _ =>
      .ok { statusCode := 200
            body := some [("file", JValue.obj [("fileId", JValue.str "f1")])]
            rawBody := "" } }

/-- URL-relay responses succeed with status 200 but the JSON body has no
"file" entry at all. -/
def relayNoFileEnv : UploadEnv :=
  { prepare := fun _ _ => .error "unused"
    upload := fun _ _ => .error "unused"
    postURL := fun _ _ _ =>
      .ok { statusCode := 200, body := some [("code", JValue.num 0)]
            rawBody := "\x7b\"code\":0\x7d" } }

/-- URL-relay responses succeed with status 200 and a "file" object that
lacks the "fileId" string. -/
def relayNoIdEnv : UploadEnv :=
  { prepare := fun _ _ => .error "unused"
    upload := fun _ _ => .error "unused"
    postURL := fun _ _ _ =>
      .ok { statusCode := 200
            body := some [("file", JValue.obj [("name", JValue.str "x")])]
            rawBody := "" } }

/-- Local-path flow: prepare succeeds, the upload transport succeeds with
status 200, but the JSON body has no "file" entry. -/
def localNoFileEnv : UploadEnv :=
  { prepare := fun _ _ => .ok [("endpoint", "e")]
    upload := fun _ _ =>
      .ok { statusCode := 200, body := some [("ok", JValue.bool true)]
            rawBody := "\x7b\"ok\":true\x7d" }
    postURL := fun _ _ _ => .error "unused" }

/-- A plain text block with a single span. -/
def paraBlock (s : String) : ContentBlock := { texts := [{ text := s }] }

/-- The content node `paraBlock s` converts to. -/
def paraNode (s : String) : MowenContentNode :=
  { type := "paragraph", content := [{ type := "text", text := s }] }

/-- A local-path image block whose extension no branch of
`getFileTypeFromPath` recognizes. -/
def badLocalImageBlock : ContentBlock :=
  { type := "file", fileType := "image", sourceType := "local"
    sourcePath := "x.txt" }

/-! ## Map lemmas -/

theorem mapGet_mapSet_self (m : GoMap) (k : String) (v : JValue) :
    mapGet (mapSet m k v) k = some v := by
  induction m with
  | nil => simp [mapSet, mapGet]
  | cons kv rest ih =>
    by_cases h : kv.1 = k
    · simp [mapSet, mapGet, h]
    · simp [mapSet, mapGet, h, ih]

theorem mapGet_mapSet_ne (m : GoMap) (k k' : String) (v : JValue)
    (h : k' ≠ k) : mapGet (mapSet m k v) k' = mapGet m k' := by
  have h' : ¬ k = k' := fun hh => h hh.symm
  induction m with
  | nil => simp [mapSet, mapGet, h']
  | cons kv rest ih =>
    by_cases hk : kv.1 = k
    · simp [mapSet, mapGet, hk, h']
    · by_cases hk' : kv.1 = k'
      · simp [mapSet, mapGet, hk, hk', h]
      · simp [mapSet, mapGet, hk, hk', ih]

theorem mapGet_singleton (k k' : String) (v : JValue) :
    mapGet [(k, v)] k' = if k = k' then some v else none := by
  simp [mapGet]

theorem foldMerge_untouched (f : String → String) (k : String) :
    ∀ (m : GoMap) (init : GoMap), (∀ kv ∈ m, f kv.1 ≠ k) →
    mapGet (foldMerge f m init) k = mapGet init k := by
  intro m
  induction m with
  | nil => intro init _; rfl
  | cons kv rest ih =>
    intro init h
    have h1 : f kv.1 ≠ k := h kv (by simp)
    have h2 : ∀ kv' ∈ rest, f kv'.1 ≠ k := fun kv' hm => h kv' (by simp [hm])
    calc mapGet (foldMerge f (kv :: rest) init) k
        = mapGet (foldMerge f rest (mapSet init (f kv.1) kv.2)) k := rfl
      _ = mapGet (mapSet init (f kv.1) kv.2) k := ih _ h2
      _ = mapGet init k := mapGet_mapSet_ne _ _ _ _ (fun hh => h1 hh.symm)

theorem foldMerge_mem (f : String → String) :
    ∀ (m : GoMap) (init : GoMap) (k : String) (v : JValue),
    (m.map (fun kv => f kv.1)).Nodup → (k, v) ∈ m →
    mapGet (foldMerge f m init) (f k) = some v := by
  intro m
  induction m with
  | nil => intro init k v _ hm; cases hm
  | cons kv rest ih =>
    intro init k v hnd hm
    have hnd1 : ∀ kv' ∈ rest, f kv'.1 ≠ f kv.1 := by
      intro kv' hm' heq
      have := (List.nodup_cons.mp hnd).1
      exact this (by exact List.mem_map.mpr ⟨kv', hm', heq⟩)
    rcases List.mem_cons.mp hm with heq | hmem
    · subst heq
      calc mapGet (foldMerge f ((k, v) :: rest) init) (f k)
          = mapGet (foldMerge f rest (mapSet init (f k) v)) (f k) := rfl
        _ = mapGet (mapSet init (f k) v) (f k) :=
            foldMerge_untouched f (f k) rest _ (fun kv' h' => hnd1 kv' h')
        _ = some v := mapGet_mapSet_self _ _ _
    · exact ih _ k v (List.nodup_cons.mp hnd).2 hmem

theorem foldMerge_domain (f : String → String) :
    ∀ (m : GoMap) (init : GoMap) (k : String) (v : JValue),
    mapGet (foldMerge f m init) k = some v →
    mapGet init k = some v ∨ ∃ k', (k', v) ∈ m ∧ f k' = k := by
  intro m
  induction m with
  | nil => intro init k v h; exact .inl h
  | cons kv rest ih =>
    intro init k v h
    have h' : mapGet (foldMerge f rest (mapSet init (f kv.1) kv.2)) k = some v := h
    rcases ih _ k v h' with hinit | ⟨k', hm', hf'⟩
    · by_cases hk : k = f kv.1
      · subst hk
        rw [mapGet_mapSet_self] at hinit
        refine .inr ⟨kv.1, ?_, rfl⟩
        have : kv.2 = v := by injection hinit
        subst this
        simp
      · rw [mapGet_mapSet_ne _ _ _ _ hk] at hinit
        exact .inl hinit
    · exact .inr ⟨k', by simp [hm'], hf'⟩

/-! ## Separator-structure lemmas -/

theorem tailSeps_nil : tailSeps [] = [] := rfl

theorem tailSeps_cons (ns : List MowenContentNode)
    (nss : List (List MowenContentNode)) :
    tailSeps (ns :: nss) = sepNode :: (ns ++ tailSeps nss) := by
  simp [tailSeps]

theorem tailSeps_length (nss : List (List MowenContentNode)) :
    (tailSeps nss).length = (nss.map List.length).sum + nss.length := by
  induction nss with
  | nil => rfl
  | cons ns rest ih => simp [tailSeps_cons, ih]; omega

/-! ## Loop characterization lemmas -/

theorem convertLoop_false_ok (env : UploadEnv) :
    ∀ (blocks : List ContentBlock) (acc : List MowenContentNode)
      (doc : MowenDocument),
    convertLoop env blocks false acc = .ok doc →
    ∃ nss, BlocksConvertTo env blocks nss ∧
      doc.type = "doc" ∧ doc.content = acc ++ tailSeps nss := by
  intro blocks
  induction blocks with
  | nil =>
    intro acc doc h
    simp only [convertLoop] at h
    injection h with h
    exact ⟨[], List.Forall₂.nil, by rw [← h], by rw [← h]; simp [tailSeps_nil]⟩
  | cons b rest ih =>
    intro acc doc h
    simp only [convertLoop, Bool.false_eq_true, if_false] at h
    cases hb : convertBlockNodes env b with
    | ok ns =>
      rw [hb] at h
      obtain ⟨nss, hf, ht, hc⟩ := ih (acc ++ [sepNode] ++ ns) doc (by
        simpa using h)
      refine ⟨ns :: nss, List.Forall₂.cons hb hf, ht, ?_⟩
      rw [hc, tailSeps_cons]
      simp
    | err m => rw [hb] at h; cases h
    | panic m => rw [hb] at h; cases h

theorem convertLoop_false_err (env : UploadEnv) :
    ∀ (blocks : List ContentBlock) (acc : List MowenContentNode)
      (doc : MowenDocument) (msg : String),
    convertLoop env blocks false acc = .err doc msg →
    ∃ pre b post nss, blocks = pre ++ b :: post ∧
      BlocksConvertTo env pre nss ∧
      convertBlockNodes env b = .err msg ∧
      doc.type = "doc" ∧ doc.content = acc ++ tailSeps nss ++ [sepNode] := by
  intro blocks
  induction blocks with
  | nil => intro acc doc msg h; cases h
  | cons b rest ih =>
    intro acc doc msg h
    simp only [convertLoop, Bool.false_eq_true, if_false] at h
    cases hb : convertBlockNodes env b with
    | ok ns =>
      rw [hb] at h
      obtain ⟨pre, b', post, nss, hsplit, hf, hberr, ht, hc⟩ :=
        ih (acc ++ [sepNode] ++ ns) doc msg (by simpa using h)
      refine ⟨b :: pre, b', post, ns :: nss, by simp [hsplit],
        List.Forall₂.cons hb hf, hberr, ht, ?_⟩
      rw [hc, tailSeps_cons]
      simp
    | err m =>
      rw [hb] at h
      injection h with h1 h2
      refine ⟨[], b, rest, [], rfl, List.Forall₂.nil, by rw [h2] at hb; exact hb,
        by rw [← h1], by rw [← h1]; simp [tailSeps_nil]⟩
    | panic m => rw [hb] at h; cases h

theorem convertLoop_false_panic (env : UploadEnv) :
    ∀ (blocks : List ContentBlock) (acc : List MowenContentNode) (msg : String),
    convertLoop env blocks false acc = .panic msg →
    ∃ pre b post nss, blocks = pre ++ b :: post ∧
      BlocksConvertTo env pre nss ∧
      convertBlockNodes env b = .panic msg := by
  intro blocks
  induction blocks with
  | nil => intro acc msg h; cases h
  | cons b rest ih =>
    intro acc msg h
    simp only [convertLoop, Bool.false_eq_true, if_false] at h
    cases hb : convertBlockNodes env b with
    | ok ns =>
      rw [hb] at h
      obtain ⟨pre, b', post, nss, hsplit, hf, hbp⟩ :=
        ih (acc ++ [sepNode] ++ ns) msg (by simpa using h)
      exact ⟨b :: pre, b', post, ns :: nss, by simp [hsplit],
        List.Forall₂.cons hb hf, hbp⟩
    | err m => rw [hb] at h; cases h
    | panic m =>
      rw [hb] at h
      injection h with h1
      exact ⟨[], b, rest, [], rfl, List.Forall₂.nil, by rw [h1] at hb; exact hb⟩

/-- Success decomposition of the whole conversion. -/
theorem convert_ok_decomp (env : UploadEnv) (blocks : List ContentBlock)
    (doc : MowenDocument)
    (h : ConvertToMowenFormat env blocks = .ok doc) :
    ∃ nss, BlocksConvertTo env blocks nss ∧
      doc.type = "doc" ∧ doc.content = withSeps nss := by
  cases blocks with
  | nil =>
    simp only [ConvertToMowenFormat, convertLoop] at h
    injection h with h
    exact ⟨[], List.Forall₂.nil, by rw [← h], by rw [← h]; rfl⟩
  | cons b rest =>
    simp only [ConvertToMowenFormat, convertLoop, if_true] at h
    cases hb : convertBlockNodes env b with
    | ok ns =>
      rw [hb] at h
      obtain ⟨nss, hf, ht, hc⟩ := convertLoop_false_ok env rest ns doc (by simpa using h)
      exact ⟨ns :: nss, List.Forall₂.cons hb hf, ht, by rw [hc]; rfl⟩
    | err m => rw [hb] at h; cases h
    | panic m => rw [hb] at h; cases h

/-- Error decomposition of the whole conversion: the blocks split at the
first failing one, the partial document carried by the error holds the
earlier blocks' nodes (plus the pending separator when the failing block
is not the first), and the error is the failing block's own. -/
theorem convert_err_decomp (env : UploadEnv) (blocks : List ContentBlock)
    (doc : MowenDocument) (msg : String)
    (h : ConvertToMowenFormat env blocks = .err doc msg) :
    ∃ pre b post nss, blocks = pre ++ b :: post ∧
      BlocksConvertTo env pre nss ∧
      convertBlockNodes env b = .err msg ∧
      doc.type = "doc" ∧
      doc.content = withSeps nss ++
        (match pre with | [] => [] | _ :: _ => [sepNode]) := by
  cases blocks with
  | nil => cases h
  | cons b rest =>
    simp only [ConvertToMowenFormat, convertLoop, if_true] at h
    cases hb : convertBlockNodes env b with
    | ok ns =>
      rw [hb] at h
      obtain ⟨pre, b', post, nss, hsplit, hf, hberr, ht, hc⟩ :=
        convertLoop_false_err env rest ns doc msg (by simpa using h)
      refine ⟨b :: pre, b', post, ns :: nss, by simp [hsplit],
        List.Forall₂.cons hb hf, hberr, ht, ?_⟩
      rw [hc]
      simp [withSeps, tailSeps_cons]
    | err m =>
      rw [hb] at h
      injection h with h1 h2
      exact ⟨[], b, rest, [], rfl, List.Forall₂.nil, by rw [h2] at hb; exact hb,
        by rw [← h1], by rw [← h1]; simp [withSeps]⟩
    | panic m => rw [hb] at h; cases h

/-- Panic decomposition of the whole conversion. -/
theorem convert_panic_decomp (env : UploadEnv) (blocks : List ContentBlock)
    (msg : String)
    (h : ConvertToMowenFormat env blocks = .panic msg) :
    ∃ pre b post nss, blocks = pre ++ b :: post ∧
      BlocksConvertTo env pre nss ∧
      convertBlockNodes env b = .panic msg := by
  cases blocks with
  | nil => cases h
  | cons b rest =>
    simp only [ConvertToMowenFormat, convertLoop, if_true] at h
    cases hb : convertBlockNodes env b with
    | ok ns =>
      rw [hb] at h
      obtain ⟨pre, b', post, nss, hsplit, hf, hbp⟩ :=
        convertLoop_false_panic env rest ns msg (by simpa using h)
      exact ⟨b :: pre, b', post, ns :: nss, by simp [hsplit],
        List.Forall₂.cons hb hf, hbp⟩
    | err m => rw [hb] at h; cases h
    | panic m =>
      rw [hb] at h
      injection h with h1
      exact ⟨[], b, rest, [], rfl, List.Forall₂.nil, by rw [h1] at hb; exact hb⟩

/-! ## Fold and validator helper lemmas -/

theorem foldl_append_map {α β : Type} (step : List β → α → List β)
    (g : α → List β) (hstep : ∀ acc x, step acc x = acc ++ g x) :
    ∀ (l : List α) (acc : List β),
    l.foldl step acc = acc ++ (l.map g).flatten := by
  intro l
  induction l with
  | nil => intro acc; simp
  | cons x xs ih => intro acc; simp [hstep, ih]

theorem flatten_singletons {α β : Type} (f : α → β) :
    ∀ l : List α, (l.map (fun x => [f x])).flatten = l.map f := by
  intro l
  induction l with
  | nil => rfl
  | cons x xs ih => simp [ih]

theorem validateTextsFrom_none_iff (i : Nat) :
    ∀ (ts : List TextNode) (j : Nat),
    validateTextsFrom i j ts = none ↔ ∀ t ∈ ts, textNodeValid t = true := by
  intro ts
  induction ts with
  | nil => intro j; simp [validateTextsFrom]
  | cons t rest ih =>
    intro j
    simp only [validateTextsFrom]
    by_cases h1 : t.text = ""
    · simp [h1, textNodeValid]
    · by_cases h2 : t.link ≠ "" ∧ hasPrefix t.link "http" = false
      · simp [h1, h2, textNodeValid]
      · have ht : textNodeValid t = true := by
          simp only [textNodeValid, if_neg h1, if_neg h2]
        rw [if_neg h1, if_neg h2, ih (j + 1)]
        simp [ht]

theorem validateTextsFrom_append (i : Nat) :
    ∀ (ts1 : List TextNode) (j : Nat) (rest : List TextNode),
    (∀ t ∈ ts1, textNodeValid t = true) →
    validateTextsFrom i j (ts1 ++ rest) =
      validateTextsFrom i (j + ts1.length) rest := by
  intro ts1
  induction ts1 with
  | nil => intro j rest _; simp [validateTextsFrom]
  | cons t ts ih =>
    intro j rest hall
    have ht := hall t (by simp)
    have h1 : ¬ t.text = "" := by
      intro h; simp [textNodeValid, h] at ht
    have h2 : ¬ (t.link ≠ "" ∧ hasPrefix t.link "http" = false) := by
      intro h; simp [textNodeValid, h1, h] at ht
    simp only [List.cons_append, validateTextsFrom, if_neg h1, if_neg h2,
      List.append_eq]
    rw [ih (j + 1) rest (fun u hu => hall u (by simp [hu]))]
    congr 1
    simp only [List.length_cons]
    omega

theorem validateParagraphsFrom_none_iff :
    ∀ (ps : List Paragraph) (i : Nat),
    validateParagraphsFrom i ps = none ↔
      ∀ p ∈ ps, paragraphValid p = true := by
  intro ps
  induction ps with
  | nil => intro i; simp [validateParagraphsFrom]
  | cons p rest ih =>
    intro i
    simp only [validateParagraphsFrom]
    by_cases h1 : p.type ≠ "" ∧ p.type ≠ "paragraph" ∧ p.type ≠ "quote"
    · simp [h1, paragraphValid]
    · by_cases h2 : p.texts = []
      · simp [h1, h2, paragraphValid]
      · cases hv : validateTextsFrom i 0 p.texts with
        | some e =>
          have hnall : ¬ ∀ t ∈ p.texts, textNodeValid t = true := by
            intro hall
            rw [(validateTextsFrom_none_iff i p.texts 0).mpr hall] at hv
            cases hv
          simp only [if_neg h1, if_neg h2, hv, List.forall_mem_cons]
          constructor
          · intro h; exact absurd h (by simp)
          · rintro ⟨hp, -⟩
            simp only [paragraphValid, if_neg h1, if_neg h2,
              List.all_eq_true] at hp
            exact absurd hp hnall
        | none =>
          have hall := (validateTextsFrom_none_iff i p.texts 0).mp hv
          simp only [if_neg h1, if_neg h2, hv, ih]
          constructor
          · intro hrest p' hp'
            rcases List.mem_cons.mp hp' with heq | hmem
            · subst heq
              simp [paragraphValid, if_neg h1, if_neg h2, List.all_eq_true]
              exact hall
            · exact hrest p' hmem
          · intro hps p' hp'
            exact hps p' (by simp [hp'])

theorem validateParagraphsFrom_append :
    ∀ (pre : List Paragraph) (i : Nat) (rest : List Paragraph),
    (∀ q ∈ pre, paragraphValid q = true) →
    validateParagraphsFrom i (pre ++ rest) =
      validateParagraphsFrom (i + pre.length) rest := by
  intro pre
  induction pre with
  | nil => intro i rest _; simp [validateParagraphsFrom]
  | cons q qs ih =>
    intro i rest hall
    have hq := hall q (by simp)
    have h1 : ¬ (q.type ≠ "" ∧ q.type ≠ "paragraph" ∧ q.type ≠ "quote") := by
      intro h; simp [paragraphValid, h] at hq
    have h2 : ¬ q.texts = [] := by
      intro h; simp [paragraphValid, h1, h] at hq
    have hts : ∀ t ∈ q.texts, textNodeValid t = true := by
      simp only [paragraphValid, if_neg h1, if_neg h2, List.all_eq_true] at hq
      exact hq
    have hv : validateTextsFrom i 0 q.texts = none :=
      (validateTextsFrom_none_iff i q.texts 0).mpr hts
    simp only [List.cons_append, validateParagraphsFrom, if_neg h1, if_neg h2,
      hv, List.append_eq]
    rw [ih (i + 1) rest (fun u hu => hall u (by simp [hu]))]
    congr 1
    simp only [List.length_cons]
    omega

theorem audioFold_eq (m : GoMap) (init : GoMap) :
    m.foldl (fun a kv => if kv.1 = "show_note" then mapSet a "show-note" kv.2
                         else mapSet a kv.1 kv.2) init =
    foldMerge renameShowNote m init := by
  unfold foldMerge
  congr 1
  funext a kv
  by_cases h : kv.1 = "show_note" <;> simp [renameShowNote, h]

theorem rename_keys_nodup (m : GoMap) (hkeys : (m.map Prod.fst).Nodup)
    (h2 : "show-note" ∉ m.map Prod.fst) :
    (m.map (fun kv => renameShowNote kv.1)).Nodup := by
  have hmm : m.map (fun kv => renameShowNote kv.1) =
      (m.map Prod.fst).map renameShowNote := by
    simp [List.map_map, Function.comp]
  rw [hmm]
  refine List.Nodup.map_on ?_ hkeys
  intro x hx y hy hxy
  by_cases hxs : x = "show_note" <;> by_cases hys : y = "show_note"
  · rw [hxs, hys]
  · exfalso
    rw [hxs] at hxy
    simp [renameShowNote, hys] at hxy
    exact h2 (by rw [hxy]; exact hy)
  · exfalso
    rw [hys] at hxy
    simp [renameShowNote, hxs] at hxy
    exact h2 (by rw [← hxy]; exact hx)
  · simpa [renameShowNote, hxs, hys] using hxy

theorem plainMerge_lookup (m : GoMap) (initk : String) (w : JValue)
    (hkeys : (m.map Prod.fst).Nodup) (h1 : initk ∉ m.map Prod.fst) :
    mapGet (foldMerge (fun kk => kk) m [(initk, w)]) initk = some w ∧
    (∀ k v, (k, v) ∈ m →
      mapGet (foldMerge (fun kk => kk) m [(initk, w)]) k = some v) ∧
    (∀ k v, mapGet (foldMerge (fun kk => kk) m [(initk, w)]) k = some v →
      (k = initk ∧ v = w) ∨ (k, v) ∈ m) := by
  have huntouched : ∀ kv ∈ m, (fun kk => kk) kv.1 ≠ initk := by
    intro kv hm hh
    exact h1 (by rw [← hh]; exact List.mem_map_of_mem Prod.fst hm)
  have hnodup : (m.map (fun kv => (fun kk => kk) kv.1)).Nodup := hkeys
  refine ⟨?_, ?_, ?_⟩
  · rw [foldMerge_untouched (fun kk => kk) initk m _ huntouched]
    simp [mapGet]
  · intro k v hm
    exact foldMerge_mem (fun kk => kk) m [(initk, w)] k v hnodup hm
  · intro k v hget
    rcases foldMerge_domain (fun kk => kk) m _ k v hget with hinit | ⟨k', hk', hf⟩
    · left
      simp only [mapGet] at hinit
      by_cases hke : initk = k
      · rw [if_pos hke] at hinit
        injection hinit with hv
        exact ⟨hke.symm, hv.symm⟩
      · rw [if_neg hke] at hinit
        exact absurd hinit (by simp)
    · right
      have : k' = k := hf
      rw [← this]
      exact hk'

/-! ## Claim C1 -/

/-- C1, counterexample: `ConvertToMowenFormat` does return a partial
document on failure.  With every remote call failing, converting a text
block followed by a local image block with an unrecognized extension
returns the Go pair `(doc, err)` whose document already contains the text
block's paragraph node and the pending separator — a non-empty partial
document accompanies the error, contradicting "no partial document
returned on failure". -/
theorem convert_err_returns_partial_doc :
    ConvertToMowenFormat trivialEnv [paraBlock "hi", badLocalImageBlock] =
      .err { type := "doc", content := [paraNode "hi", sepNode] }
        "上传本地图片文件失败: 无法确定文件类型: 不支持的文件类型: .txt" ∧
    ([paraNode "hi", sepNode] : List MowenContentNode) ≠ [] :=
  ⟨rfl, by simp⟩

/-- C1, amended: for every environment and block list, the conversion
either succeeds with the complete document (every block's nodes in caller
order, separator-interleaved), or stops at the first block whose
conversion fails and returns that block's failure; the document value
returned alongside the error is only the partial tree of the blocks
strictly before the failing one plus the pending separator, with no
content node for the failing block or any later block (a panic escapes
with no document at all). -/
theorem convert_first_failure_characterization (env : UploadEnv)
    (blocks : List ContentBlock) :
    (∀ doc, ConvertToMowenFormat env blocks = .ok doc →
      ∃ nss, BlocksConvertTo env blocks nss ∧
        doc.type = "doc" ∧ doc.content = withSeps nss) ∧
    (∀ doc msg, ConvertToMowenFormat env blocks = .err doc msg →
      ∃ pre b post nss, blocks = pre ++ b :: post ∧
        BlocksConvertTo env pre nss ∧
        convertBlockNodes env b = .err msg ∧
        doc.type = "doc" ∧
        doc.content = withSeps nss ++
          (match pre with | [] => [] | _ :: _ => [sepNode])) ∧
    (∀ msg, ConvertToMowenFormat env blocks = .panic msg →
      ∃ pre b post nss, blocks = pre ++ b :: post ∧
        BlocksConvertTo env pre nss ∧
        convertBlockNodes env b = .panic msg) :=
  ⟨fun doc h => convert_ok_decomp env blocks doc h,
   fun doc msg h => convert_err_decomp env blocks doc msg h,
   fun msg h => convert_panic_decomp env blocks msg h⟩

/-- C1 witness: the characterization applied to a concrete failing run. -/
theorem convert_first_failure_characterization_witness :
    ∃ pre b post nss,
      ([paraBlock "hi", badLocalImageBlock] : List ContentBlock) =
        pre ++ b :: post ∧
      BlocksConvertTo trivialEnv pre nss ∧
      convertBlockNodes trivialEnv b =
        .err "上传本地图片文件失败: 无法确定文件类型: 不支持的文件类型: .txt" ∧
      ({ type := "doc", content := [paraNode "hi", sepNode] } :
        MowenDocument).type = "doc" ∧
      ({ type := "doc", content := [paraNode "hi", sepNode] } :
        MowenDocument).content = withSeps nss ++
          (match pre with | [] => [] | _ :: _ => [sepNode]) :=
  (convert_first_failure_characterization trivialEnv
      [paraBlock "hi", badLocalImageBlock]).2.1
    { type := "doc", content := [paraNode "hi", sepNode] }
    "上传本地图片文件失败: 无法确定文件类型: 不支持的文件类型: .txt" rfl

/-! ## Claim C2 -/

/-- C2: on every successful conversion the content is the blocks' node
lists in caller order with exactly one separator between adjacent blocks
and none at either end; for `n ≥ 1` blocks the content carries exactly
`n - 1` separator insertions (stated additively:
`|content| + 1 = Σᵢ|nodesᵢ| + n`), regardless of block kinds. -/
theorem convert_separator_structure (env : UploadEnv)
    (blocks : List ContentBlock) (doc : MowenDocument)
    (h : ConvertToMowenFormat env blocks = .ok doc) :
    ∃ nss, BlocksConvertTo env blocks nss ∧
      nss.length = blocks.length ∧
      doc.content = withSeps nss ∧
      (blocks ≠ [] →
        doc.content.length + 1 = (nss.map List.length).sum + blocks.length) := by
  obtain ⟨nss, hf, _, hc⟩ := convert_ok_decomp env blocks doc h
  have hlen : nss.length = blocks.length := hf.length_eq.symm
  refine ⟨nss, hf, hlen, hc, fun hne => ?_⟩
  cases nss with
  | nil =>
    cases blocks with
    | nil => exact absurd rfl hne
    | cons b rest => exact absurd hf.length_eq (by simp)
  | cons ns rest =>
    rw [hc]
    simp [withSeps, tailSeps_length, ← hlen]
    omega

/-- C2 witness: a three-block run (text, quote, text) yields exactly two
separators, between blocks 1–2 and 2–3. -/
theorem convert_separator_structure_witness :
    ∃ nss,
      BlocksConvertTo trivialEnv
        [paraBlock "a", { type := "quote", texts := [{ text := "q" }] },
         paraBlock "b"] nss ∧
      nss.length = 3 ∧
      ([paraNode "a", sepNode,
        { type := "quote", content := [{ type := "text", text := "q" }] },
        sepNode, paraNode "b"] : List MowenContentNode) = withSeps nss ∧
      (([paraBlock "a", { type := "quote", texts := [{ text := "q" }] },
         paraBlock "b"] : List ContentBlock) ≠ [] →
        5 + 1 = (nss.map List.length).sum + 3) :=
  convert_separator_structure trivialEnv
    [paraBlock "a", { type := "quote", texts := [{ text := "q" }] },
     paraBlock "b"]
    { type := "doc"
      content := [paraNode "a", sepNode,
        { type := "quote", content := [{ type := "text", text := "q" }] },
        sepNode, paraNode "b"] }
    rfl

/-! ## Claim C4 -/

/-- C4, counterexample: converting the empty block list does NOT fail —
it returns the empty document with a nil error. -/
theorem convert_empty_blocks_ok_counterexample :
    ConvertToMowenFormat trivialEnv [] = .ok { type := "doc", content := [] } :=
  rfl

/-- C4, amended: `ConvertToMowenFormat` itself accepts the empty block
list and returns the empty document with no error; the empty-list
validation error lives in the tool layer's `validateRichNoteParagraphs`,
which rejects an empty paragraph list (before that layer makes any
network call). -/
theorem empty_blocks_validation_location :
    (∀ env, ConvertToMowenFormat env [] = .ok { type := "doc", content := [] }) ∧
    validateRichNoteParagraphs [] = some "段落列表不能为空" :=
  ⟨fun _ => rfl, rfl⟩

/-! ## Claim C9 -/

/-- C9: a `file` block whose declared media kind is none of
image/audio/pdf produces no output node and no error — the inner switch
falls through — and conversion of the remaining blocks continues (with
the separator for the dropped block still inserted when it is not the
first). -/
theorem unsupported_media_silently_dropped (env : UploadEnv)
    (b : ContentBlock) (ys : List ContentBlock)
    (hty : b.type = "file")
    (h1 : b.fileType ≠ "image") (h2 : b.fileType ≠ "audio")
    (h3 : b.fileType ≠ "pdf") :
    convertBlockNodes env b = .ok [] ∧
    ConvertToMowenFormat env (b :: ys) = convertLoop env ys false [] ∧
    (∀ acc, convertLoop env (b :: ys) false acc =
      convertLoop env ys false (acc ++ [sepNode])) := by
  have hb : convertBlockNodes env b = .ok [] := by
    unfold convertBlockNodes
    rw [hty]
    split
    · simp_all
    · simp_all
    · split
      · simp_all
      · simp_all
      · simp_all
      · rfl
    · simp_all
  refine ⟨hb, ?_, ?_⟩
  · simp [ConvertToMowenFormat, convertLoop, hb]
  · intro acc
    simp [convertLoop, hb]

/-- C9 witness: a concrete `video` media block between two text blocks is
dropped while both neighbours convert, with both separators kept. -/
theorem unsupported_media_silently_dropped_witness :
    convertBlockNodes trivialEnv { type := "file", fileType := "video" } =
      .ok [] ∧
    ConvertToMowenFormat trivialEnv
        [{ type := "file", fileType := "video" }, paraBlock "b"] =
      convertLoop trivialEnv [paraBlock "b"] false [] ∧
    (∀ acc, convertLoop trivialEnv
        [{ type := "file", fileType := "video" }, paraBlock "b"] false acc =
      convertLoop trivialEnv [paraBlock "b"] false (acc ++ [sepNode])) :=
  unsupported_media_silently_dropped trivialEnv
    { type := "file", fileType := "video" } [paraBlock "b"]
    rfl (by simp) (by simp) (by simp)

/-! ## Claim C3 -/

/-- C3: the Text/Mark Converter emits exactly one text node per span, in
input order with no filtering; each node's kind is `text`, its text the
span's text, and its marks are, in this fixed order and only when the
corresponding flag/field is set, a bold mark with no attributes, a
highlight mark with no attributes, then a link mark whose attrs map
`href` to the span's link; a flag-free span gets an empty mark list.  The
operation is a total pure function (it returns a plain list, with no
error or panic case). -/
theorem convertTexts_one_node_per_span (texts : List TextNode) :
    convertTextsToMowenFormat texts = texts.map specTextNode := by
  have hstep : ∀ (result : List MowenTextNode) (text : TextNode),
      (fun (result : List MowenTextNode) (text : TextNode) =>
        let marks : List MarkNode := []
        let marks := if text.bold then marks ++ [{ type := "bold" }] else marks
        let marks :=
          if text.highlight then marks ++ [{ type := "highlight" }] else marks
        let marks :=
          if text.link ≠ "" then
            marks ++ [{ type := "link", attrs := [("href", JValue.str text.link)] }]
          else marks
        result ++ [{ type := "text", text := text.text, marks := marks }])
        result text = result ++ [specTextNode text] := by
    intro result text
    by_cases hb : text.bold <;> by_cases hh : text.highlight <;>
      by_cases hl : text.link = "" <;> simp [specTextNode, hb, hh, hl]
  calc convertTextsToMowenFormat texts
      = texts.foldl _ [] := rfl
    _ = [] ++ (texts.map (fun t => [specTextNode t])).flatten :=
        foldl_append_map _ _ hstep texts []
    _ = texts.map specTextNode := by rw [List.nil_append, flatten_singletons]

/-! ## Claim C5 -/

/-- C5 (evidence for the code bug): a transport-successful upload
response whose body lacks the nested file identifier does NOT always
yield a typed failure — the unchecked type assertions panic.  With status
200 and a JSON body with no "file" entry, the URL-relay flow panics and
the local-path flow panics; only the narrower case of a present "file"
object lacking a string "fileId" gives the typed missing-field error in
the URL flow (the comma-ok assignment covers just the outermost
assertion). -/
theorem upload_missing_file_field_panics :
    uploadFileFromURL relayNoFileEnv "http://a/x.png" "image" "x.png" =
      .panic "interface conversion" ∧
    generateFileUUID localNoFileEnv "a.png" = .panic "interface conversion" ∧
    uploadFileFromURL relayNoIdEnv "http://a/x.png" "image" "x.png" =
      .err "上传文件响应中缺少 \x27fileId\x27 字段" :=
  ⟨rfl, rfl, rfl⟩

/-! ## Claim C6 -/

/-- C6, counterexample: the validator only tests the literal prefix
"http", so the link "httpfoo://x" — which begins with neither the
`http://` nor the `https://` scheme — passes validation instead of being
rejected. -/
theorem validate_link_prefix_counterexample :
    validateRichNoteParagraphs
      [{ texts := [{ text := "a", link := "httpfoo://x" }] }] = none ∧
    hasPrefix "httpfoo://x" "http://" = false ∧
    hasPrefix "httpfoo://x" "https://" = false :=
  ⟨rfl, rfl, rfl⟩

/-- C6, amended: validation accepts a paragraph list iff it is non-empty
and every span has non-empty text and a link that is absent or carries
the literal prefix "http" (not necessarily an HTTP(S) scheme); a present
link without that prefix — such as `ftp://x` — is rejected with the error
naming the span's 1-based paragraph and span positions, by a check that
is pure (no network call). -/
theorem validate_link_prefix_characterization :
    (∀ ps, validateRichNoteParagraphs ps = none ↔
      ps ≠ [] ∧ ∀ p ∈ ps, paragraphValid p = true) ∧
    (∀ (pre : List Paragraph) (p : Paragraph) (post : List Paragraph)
       (ts1 : List TextNode) (t : TextNode) (ts2 : List TextNode),
      (∀ q ∈ pre, paragraphValid q = true) →
      ¬ (p.type ≠ "" ∧ p.type ≠ "paragraph" ∧ p.type ≠ "quote") →
      p.texts = ts1 ++ t :: ts2 →
      (∀ u ∈ ts1, textNodeValid u = true) →
      t.text ≠ "" → t.link ≠ "" → hasPrefix t.link "http" = false →
      validateRichNoteParagraphs (pre ++ p :: post) =
        some ("第" ++ toString (pre.length + 1) ++ "个段落第" ++
              toString (ts1.length + 1) ++ "个文本节点的link必须是有效的URL")) := by
  constructor
  · intro ps
    cases ps with
    | nil => simp [validateRichNoteParagraphs]
    | cons p rest =>
      rw [validateRichNoteParagraphs, if_neg (by simp),
        validateParagraphsFrom_none_iff]
      simp
  · intro pre p post ts1 t ts2 hpre htype htexts hts1 htext hlink hpref
    have hne : ¬ (pre ++ p :: post) = [] := by simp
    rw [validateRichNoteParagraphs, if_neg hne,
      validateParagraphsFrom_append pre 0 (p :: post) hpre]
    have h2 : ¬ p.texts = [] := by rw [htexts]; simp
    simp only [validateParagraphsFrom, if_neg htype, if_neg h2]
    rw [htexts, validateTextsFrom_append (0 + pre.length) ts1 0 (t :: ts2) hts1]
    simp only [validateTextsFrom, if_neg htext,
      if_pos (And.intro hlink hpref)]
    simp [Nat.add_comm]

/-- C6 witness: a span with link `ftp://x` in the first paragraph is
rejected with the position-bearing error, and a prefix-passing link is
accepted. -/
theorem validate_link_prefix_characterization_witness :
    validateRichNoteParagraphs [{ texts := [{ text := "a", link := "ftp://x" }] }] =
      some ("第" ++ toString (0 + 1) ++ "个段落第" ++ toString (0 + 1) ++
            "个文本节点的link必须是有效的URL") :=
  validate_link_prefix_characterization.2 [] { texts := [{ text := "a", link := "ftp://x" }] }
    [] [] { text := "a", link := "ftp://x" } []
    (by simp) (by simp) rfl (by simp) (by simp) (by simp) rfl

/-! ## Claim C7 -/

/-- C7: in the local-path flow the numeric media-kind code is a function
of the file extension alone — image extensions give 1, audio extensions
give 2, `.pdf` gives 3 — the code transmitted to the prepare step is
exactly that value (observed via `probeEnv`), the caller-declared media
kind plays no part (the local branch calls `generateFileUUID` with only
the path, whatever the declared kind), and an unrecognized extension
fails the whole resolution, and with it the block's conversion. -/
theorem fileType_from_extension_only :
    (∀ p1 p2 : String, filepathExt p1 = filepathExt p2 →
      getFileTypeFromPath p1 = getFileTypeFromPath p2) ∧
    (∀ p : String,
      (getFileTypeFromPath p = .ok 1 ↔
        toLowerStr (filepathExt p) ∈
          ([".jpg", ".jpeg", ".png", ".gif", ".bmp", ".webp"] : List String)) ∧
      (getFileTypeFromPath p = .ok 2 ↔
        toLowerStr (filepathExt p) ∈
          ([".mp3", ".wav", ".aac", ".flac", ".ogg", ".m4a"] : List String)) ∧
      (getFileTypeFromPath p = .ok 3 ↔ toLowerStr (filepathExt p) = ".pdf")) ∧
    (∀ (env : UploadEnv) (p e : String), getFileTypeFromPath p = .error e →
      generateFileUUID env p = .err ("无法确定文件类型: " ++ e)) ∧
    (∀ (p : String) (ft : Nat), getFileTypeFromPath p = .ok ft →
      generateFileUUID probeEnv p = .err ("获取上传授权失败: " ++ toString ft)) ∧
    (∀ (env : UploadEnv) (p e : String) (m : GoMap) (k : String),
      k = "image" ∨ k = "audio" ∨ k = "pdf" →
      getFileTypeFromPath p = .error e →
      convertBlockNodes env
        { type := "file", fileType := k, sourceType := "local",
          sourcePath := p, metadata := m } =
      .err ((if k = "image" then "上传本地图片文件失败: "
             else if k = "audio" then "上传本地音频文件失败: "
             else "上传本地PDF文件失败: ") ++ ("无法确定文件类型: " ++ e))) := by
  refine ⟨?_, ?_, ?_, ?_, ?_⟩
  · intro p1 p2 h
    simp only [getFileTypeFromPath, h]
  · intro p
    simp only [getFileTypeFromPath]
    by_cases c1 : toLowerStr (filepathExt p) = ".jpg" ∨
        toLowerStr (filepathExt p) = ".jpeg" ∨
        toLowerStr (filepathExt p) = ".png" ∨
        toLowerStr (filepathExt p) = ".gif" ∨
        toLowerStr (filepathExt p) = ".bmp" ∨
        toLowerStr (filepathExt p) = ".webp"
    · rcases c1 with h|h|h|h|h|h <;> rw [h] <;> simp
    · by_cases c2 : toLowerStr (filepathExt p) = ".mp3" ∨
          toLowerStr (filepathExt p) = ".wav" ∨
          toLowerStr (filepathExt p) = ".aac" ∨
          toLowerStr (filepathExt p) = ".flac" ∨
          toLowerStr (filepathExt p) = ".ogg" ∨
          toLowerStr (filepathExt p) = ".m4a"
      · rcases c2 with h|h|h|h|h|h <;> rw [h] <;> simp
      · by_cases c3 : toLowerStr (filepathExt p) = ".pdf"
        · rw [c3]; simp
        · rw [if_neg c1, if_neg c2, if_neg c3]
          simp [c1, c2, c3]
  · intro env p e h
    simp only [generateFileUUID, h]
  · intro p ft h
    simp only [generateFileUUID, h]
    rfl
  · intro env p e m k hk h
    rcases hk with hk | hk | hk <;> subst hk <;>
      simp [convertBlockNodes, generateFileUUID, h]

/-- C7 witness: for `a.png` the extension-derived code 1 is what reaches
the prepare step; for `x.txt` the whole local resolution fails. -/
theorem fileType_from_extension_only_witness :
    generateFileUUID probeEnv "a.png" =
      .err ("获取上传授权失败: " ++ toString 1) ∧
    generateFileUUID trivialEnv "x.txt" =
      .err ("无法确定文件类型: " ++ "不支持的文件类型: .txt") :=
  ⟨fileType_from_extension_only.2.2.2.1 "a.png" 1 rfl,
   fileType_from_extension_only.2.2.1 trivialEnv "x.txt" "不支持的文件类型: .txt" rfl⟩

/-! ## Claim C8 -/

/-- C8, counterexample: metadata is merged after the identifier is set,
so an audio block whose metadata itself contains "audio-uuid" emits that
metadata value, not the resolved id "f1" — the attrs map does not contain
"audio-uuid" mapped to the resolved id. -/
theorem audio_metadata_overwrites_id :
    ConvertToMowenFormat relayOkEnv
      [{ type := "file", fileType := "audio", sourceType := "url",
         sourcePath := "http://a/x.mp3",
         metadata := [("audio-uuid", JValue.str "x")] }] =
      .ok { type := "doc",
            content := [{ type := "audio",
                          attrs := [("audio-uuid", JValue.str "x")] }] } ∧
    uploadFileFromURL relayOkEnv "http://a/x.mp3" "audio" "http://a/x.mp3" =
      .ok "f1" ∧
    mapGet [("audio-uuid", JValue.str "x")] "audio-uuid" ≠
      some (JValue.str "f1") :=
  ⟨rfl, rfl, by simp [mapGet]⟩

/-- C8, amended: provided the metadata map does not itself use the
reserved output keys ("audio-uuid"/"show-note" for audio, "uuid" for
image and pdf — such caller entries would overwrite, since metadata is
merged after the identifier), the emitted node is of the matching kind
and its attrs map the identifier key to the resolved id and contain
exactly the metadata entries, with key "show_note" stored as "show-note"
for audio and copied unrenamed for image/pdf. -/
theorem media_attrs_merge_characterization (env : UploadEnv)
    (st sp : String) (m : GoMap) (fid : String)
    (hkeys : (m.map Prod.fst).Nodup) :
    ((if st = "url" then uploadFileFromURL env sp "audio" sp
      else generateFileUUID env sp) = .ok fid →
     "audio-uuid" ∉ m.map Prod.fst → "show-note" ∉ m.map Prod.fst →
     ∃ attrs,
       convertBlockNodes env
         { type := "file", fileType := "audio", sourceType := st,
           sourcePath := sp, metadata := m } =
         .ok [{ type := "audio", attrs := attrs }] ∧
       mapGet attrs "audio-uuid" = some (JValue.str fid) ∧
       (∀ k v, (k, v) ∈ m → k ≠ "show_note" → mapGet attrs k = some v) ∧
       (∀ v, ("show_note", v) ∈ m → mapGet attrs "show-note" = some v) ∧
       (∀ k v, mapGet attrs k = some v →
         (k = "audio-uuid" ∧ v = JValue.str fid) ∨
         ((k, v) ∈ m ∧ k ≠ "show_note") ∨
         (k = "show-note" ∧ ("show_note", v) ∈ m))) ∧
    ((if st = "url" then uploadFileFromURL env sp "image" sp
      else generateFileUUID env sp) = .ok fid →
     "uuid" ∉ m.map Prod.fst →
     ∃ attrs,
       convertBlockNodes env
         { type := "file", fileType := "image", sourceType := st,
           sourcePath := sp, metadata := m } =
         .ok [{ type := "image", attrs := attrs }] ∧
       mapGet attrs "uuid" = some (JValue.str fid) ∧
       (∀ k v, (k, v) ∈ m → mapGet attrs k = some v) ∧
       (∀ k v, mapGet attrs k = some v →
         (k = "uuid" ∧ v = JValue.str fid) ∨ (k, v) ∈ m)) ∧
    ((if st = "url" then uploadFileFromURL env sp "pdf" (filepathBase sp)
      else generateFileUUID env sp) = .ok fid →
     "uuid" ∉ m.map Prod.fst →
     ∃ attrs,
       convertBlockNodes env
         { type := "file", fileType := "pdf", sourceType := st,
           sourcePath := sp, metadata := m } =
         .ok [{ type := "pdf", attrs := attrs }] ∧
       mapGet attrs "uuid" = some (JValue.str fid) ∧
       (∀ k v, (k, v) ∈ m → mapGet attrs k = some v) ∧
       (∀ k v, mapGet attrs k = some v →
         (k = "uuid" ∧ v = JValue.str fid) ∨ (k, v) ∈ m)) := by
  refine ⟨?_, ?_, ?_⟩
  · intro hres h1 h2
    have hnodup : (m.map (fun kv => renameShowNote kv.1)).Nodup :=
      rename_keys_nodup m hkeys h2
    have huntouched : ∀ kv ∈ m, renameShowNote kv.1 ≠ "audio-uuid" := by
      intro kv hm
      by_cases hs : kv.1 = "show_note"
      · simp [renameShowNote, hs]
      · simp only [renameShowNote, if_neg hs]
        intro hh
        exact h1 (by rw [← hh]; exact List.mem_map_of_mem Prod.fst hm)
    refine ⟨foldMerge renameShowNote m [("audio-uuid", JValue.str fid)],
      ?_, ?_, ?_, ?_, ?_⟩
    · unfold convertBlockNodes
      dsimp only
      rw [hres]
      simp only [audioFold_eq]
    · rw [foldMerge_untouched renameShowNote "audio-uuid" m _ huntouched]
      simp [mapGet]
    · intro k v hm hk
      have hid : renameShowNote k = k := by simp [renameShowNote, hk]
      have hmem := foldMerge_mem renameShowNote m
        [("audio-uuid", JValue.str fid)] k v hnodup hm
      rwa [hid] at hmem
    · intro v hm
      have hmem := foldMerge_mem renameShowNote m
        [("audio-uuid", JValue.str fid)] "show_note" v hnodup hm
      simpa [renameShowNote] using hmem
    · intro k v hget
      rcases foldMerge_domain renameShowNote m _ k v hget with
        hinit | ⟨k', hk', hf⟩
      · left
        simp only [mapGet] at hinit
        by_cases hke : "audio-uuid" = k
        · rw [if_pos hke] at hinit
          injection hinit with hv
          exact ⟨hke.symm, hv.symm⟩
        · rw [if_neg hke] at hinit
          exact absurd hinit (by simp)
      · by_cases hs : k' = "show_note"
        · right; right
          subst hs
          simp only [renameShowNote, if_pos rfl] at hf
          exact ⟨hf.symm, hk'⟩
        · right; left
          have hid : renameShowNote k' = k' := by simp [renameShowNote, hs]
          rw [hid] at hf
          rw [← hf]
          exact ⟨hk', hs⟩
  · intro hres h1
    obtain ⟨ha, hb, hc⟩ := plainMerge_lookup m "uuid" (JValue.str fid) hkeys h1
    refine ⟨foldMerge (fun kk => kk) m [("uuid", JValue.str fid)],
      ?_, ha, hb, hc⟩
    unfold convertBlockNodes
    dsimp only
    rw [hres]
    exact rfl
  · intro hres h1
    obtain ⟨ha, hb, hc⟩ := plainMerge_lookup m "uuid" (JValue.str fid) hkeys h1
    refine ⟨foldMerge (fun kk => kk) m [("uuid", JValue.str fid)],
      ?_, ha, hb, hc⟩
    unfold convertBlockNodes
    dsimp only
    rw [hres]
    exact rfl

/-- C8 witness: the spec's own example — an audio block with metadata
`show_note = "hi"` and resolved id `"f1"`. -/
theorem media_attrs_merge_characterization_witness :
    ∃ attrs,
      convertBlockNodes relayOkEnv
        { type := "file", fileType := "audio", sourceType := "url",
          sourcePath := "http://a/x.mp3",
          metadata := [("show_note", JValue.str "hi")] } =
        .ok [{ type := "audio", attrs := attrs }] ∧
      mapGet attrs "audio-uuid" = some (JValue.str "f1") ∧
      (∀ k v, (k, v) ∈ ([("show_note", JValue.str "hi")] : GoMap) →
        k ≠ "show_note" → mapGet attrs k = some v) ∧
      (∀ v, ("show_note", v) ∈ ([("show_note", JValue.str "hi")] : GoMap) →
        mapGet attrs "show-note" = some v) ∧
      (∀ k v, mapGet attrs k = some v →
        (k = "audio-uuid" ∧ v = JValue.str "f1") ∨
        ((k, v) ∈ ([("show_note", JValue.str "hi")] : GoMap) ∧
          k ≠ "show_note") ∨
        (k = "show-note" ∧
          ("show_note", v) ∈ ([("show_note", JValue.str "hi")] : GoMap))) :=
  (media_attrs_merge_characterization relayOkEnv "url" "http://a/x.mp3"
      [("show_note", JValue.str "hi")] "f1" (by simp)).1
    rfl (by simp) (by simp)

/-! ## Claim C10 -/

/-- C10: for image and pdf media blocks, a metadata entry keyed "uuid"
replaces the resolved identifier in the emitted attrs, because the
metadata loop runs after the identifier is written; the output "uuid"
attribute therefore need not equal the Media Resolver's result. -/
theorem metadata_uuid_overrides_resolved_id (env : UploadEnv)
    (st sp : String) (m : GoMap) (fid : String) (v : JValue)
    (hkeys : (m.map Prod.fst).Nodup) (hmem : ("uuid", v) ∈ m) :
    ((if st = "url" then uploadFileFromURL env sp "image" sp
      else generateFileUUID env sp) = .ok fid →
     ∃ attrs,
       convertBlockNodes env
         { type := "file", fileType := "image", sourceType := st,
           sourcePath := sp, metadata := m } =
         .ok [{ type := "image", attrs := attrs }] ∧
       mapGet attrs "uuid" = some v ∧
       (v ≠ JValue.str fid → ¬ mapGet attrs "uuid" = some (JValue.str fid))) ∧
    ((if st = "url" then uploadFileFromURL env sp "pdf" (filepathBase sp)
      else generateFileUUID env sp) = .ok fid →
     ∃ attrs,
       convertBlockNodes env
         { type := "file", fileType := "pdf", sourceType := st,
           sourcePath := sp, metadata := m } =
         .ok [{ type := "pdf", attrs := attrs }] ∧
       mapGet attrs "uuid" = some v ∧
       (v ≠ JValue.str fid → ¬ mapGet attrs "uuid" = some (JValue.str fid))) := by
  have hnodup : (m.map (fun kv => (fun kk => kk) kv.1)).Nodup := hkeys
  have hlookup : mapGet (foldMerge (fun kk => kk) m [("uuid", JValue.str fid)])
      "uuid" = some v :=
    foldMerge_mem (fun kk => kk) m [("uuid", JValue.str fid)] "uuid" v
      hnodup hmem
  constructor
  · intro hres
    refine ⟨foldMerge (fun kk => kk) m [("uuid", JValue.str fid)],
      ?_, hlookup, ?_⟩
    · unfold convertBlockNodes
      dsimp only
      rw [hres]
      exact rfl
    · intro hv hc
      rw [hlookup] at hc
      injection hc with hc
      exact hv hc
  · intro hres
    refine ⟨foldMerge (fun kk => kk) m [("uuid", JValue.str fid)],
      ?_, hlookup, ?_⟩
    · unfold convertBlockNodes
      dsimp only
      rw [hres]
      exact rfl
    · intro hv hc
      rw [hlookup] at hc
      injection hc with hc
      exact hv hc

/-- C10 witness: an image block with metadata `uuid = "mine"` resolved to
id `"f1"` emits `uuid = "mine"`, not `"f1"`. -/
theorem metadata_uuid_overrides_resolved_id_witness :
    ∃ attrs,
      convertBlockNodes relayOkEnv
        { type := "file", fileType := "image", sourceType := "url",
          sourcePath := "http://a/x.png",
          metadata := [("uuid", JValue.str "mine")] } =
        .ok [{ type := "image", attrs := attrs }] ∧
      mapGet attrs "uuid" = some (JValue.str "mine") ∧
      (JValue.str "mine" ≠ JValue.str "f1" →
        ¬ mapGet attrs "uuid" = some (JValue.str "f1")) :=
  (metadata_uuid_overrides_resolved_id relayOkEnv "url" "http://a/x.png"
      [("uuid", JValue.str "mine")] "f1" (JValue.str "mine")
      (by simp) (by simp)).1 rfl

end Mowen
